import Mathlib

/-!
Verification of the floatChat-KG knowledge-graph core.

The embedding below translates the graph-construction function
`generateKnowledgeGraph` from `src/components/KnowledgeGraph.tsx` into Lean.
JavaScript numbers are modelled as exact rationals (ℚ), JavaScript strings as
Lean `String`, and the first-occurrence deduplication performed by
`[...new Set(xs)]` as `dedupFirst`.  `String.prototype.substring(0, 7)` is
modelled as taking the first seven characters of the string (the whole string
when it is shorter).
-/

set_option maxHeartbeats 1000000

namespace FloatChatKG

/-- A validated measurement record (the `CSVData` interface of the source). -/
structure CSVData where
  latitude : ℚ
  longitude : ℚ
  region : String
  depth : ℚ
  salinity : ℚ
  temperature : ℚ
  ph : ℚ
  dissolved_oxygen : ℚ
  fish_population : ℚ
  plankton : ℚ
  coral_coverage : ℚ
  timestamp : String
  date : String
deriving DecidableEq, Repr

/-- Node kinds, the `type` union of the source `GraphNode` interface. -/
inductive NodeType where
  | region
  | parameter
  | biology
  | time
deriving DecidableEq, Repr

/-- A graph node as constructed by `generateKnowledgeGraph` (the layout-time
fields `x`, `y`, `fx`, `fy` are owned by the layout engine and modelled
separately). -/
structure GraphNode where
  id : String
  type : NodeType
  value : String
  group : Nat
deriving DecidableEq, Repr

/-- A weighted edge as constructed by `generateKnowledgeGraph`; `source` and
`target` hold node ids (the string form used at construction time). -/
structure GraphLink where
  source : String
  target : String
  value : ℚ
  type : String
deriving DecidableEq, Repr

/-- Helper for `dedupFirst`: keep each element not seen before, in order,
carrying the set of already-seen elements. -/
def dedupFirstAux {α : Type} [DecidableEq α] (seen : List α) : List α → List α
  | [] => []
  | x :: xs =>
    if x ∈ seen then dedupFirstAux seen xs
    else x :: dedupFirstAux (x :: seen) xs

/-- First-occurrence deduplication, the semantics of `[...new Set(xs)]`. -/
def dedupFirst {α : Type} [DecidableEq α] (l : List α) : List α :=
  dedupFirstAux [] l

/-- `s.substring(0, 7)`: the first seven characters of `s`, or all of `s`
when it is shorter. -/
def substr7 (s : String) : String := String.mk (s.data.take 7)

/-- The fixed parameter catalog (`parameters` in the source). -/
def parameters : List String :=
  ["salinity", "temperature", "ph", "dissolved_oxygen", "depth"]

/-- The fixed biology catalog (`biologyParams` in the source). -/
def biologyParams : List String :=
  ["fish_population", "plankton", "coral_coverage"]

/-- The distinct regions in first-occurrence order
(`[...new Set(data.map(d => d.region))]`). -/
def regionsOf (data : List CSVData) : List String :=
  dedupFirst (data.map (fun d => d.region))

/-- The distinct year-month prefixes in first-occurrence order
(`[...new Set(data.map(d => d.date.substring(0, 7)))]`). -/
def monthsOf (data : List CSVData) : List String :=
  dedupFirst (data.map (fun d => substr7 d.date))

/-- Region nodes: one per distinct region value, group 1. -/
def regionNodes (data : List CSVData) : List GraphNode :=
  (regionsOf data).map (fun region =>
    { id := "region-" ++ region, type := NodeType.region, value := region, group := 1 })

/-- Parameter nodes: the fixed catalog, group 2. -/
def parameterNodes : List GraphNode :=
  parameters.map (fun p =>
    { id := "param-" ++ p, type := NodeType.parameter, value := p, group := 2 })

/-- Biology nodes: the fixed catalog, group 3. -/
def biologyNodes : List GraphNode :=
  biologyParams.map (fun p =>
    { id := "bio-" ++ p, type := NodeType.biology, value := p, group := 3 })

/-- Time nodes: one per distinct year-month prefix, group 4. -/
def timeNodes (data : List CSVData) : List GraphNode :=
  (monthsOf data).map (fun month =>
    { id := "time-" ++ month, type := NodeType.time, value := month, group := 4 })

/-- All nodes, in the construction order of the source (regions, parameters,
biology, time). -/
def graphNodes (data : List CSVData) : List GraphNode :=
  regionNodes data ++ parameterNodes ++ biologyNodes ++ timeNodes data

/-- Access one of the eight numeric stat fields by its name, mirroring the
string-keyed `stats[param]` lookup of the source. -/
def statField (r : CSVData) : String → ℚ
  | "salinity" => r.salinity
  | "temperature" => r.temperature
  | "ph" => r.ph
  | "dissolved_oxygen" => r.dissolved_oxygen
  | "depth" => r.depth
  | "fish_population" => r.fish_population
  | "plankton" => r.plankton
  | "coral_coverage" => r.coral_coverage
  | _ => 0

/-- `values.reduce((a, b) => a + b, 0) / values.length`. -/
def listAvg (l : List ℚ) : ℚ := l.sum / l.length

/-- `Math.min(a, b)` on rationals, written with an explicit comparison so it
evaluates by kernel reduction. -/
def ratMin (a b : ℚ) : ℚ := if a ≤ b then a else b

/-- `Math.max(a, b)` on rationals. -/
def ratMax (a b : ℚ) : ℚ := if a ≤ b then b else a

/-- `Math.max(0.1, Math.min(10, x))`. -/
def clampWeight (x : ℚ) : ℚ := ratMax (1 / 10) (ratMin 10 x)

/-- The records grouped under `region-${region}` in `regionStats`, in data
order. -/
def regionRecords (data : List CSVData) (region : String) : List CSVData :=
  data.filter (fun r => r.region = region)

/-- The eight links emitted for one region of `regionStats`: five parameter
links (weight `clamp(mean/10, 0.1, 10)`), then three biology links (weight
`clamp(mean/100, 0.1, 10)`). -/
def regionLinkGroup (data : List CSVData) (region : String) : List GraphLink :=
  parameters.map (fun p =>
    { source := "region-" ++ region, target := "param-" ++ p,
      value := clampWeight
        (listAvg ((regionRecords data region).map (fun r => statField r p)) / 10),
      type := "parameter" })
  ++ biologyParams.map (fun p =>
    { source := "region-" ++ region, target := "bio-" ++ p,
      value := clampWeight
        (listAvg ((regionRecords data region).map (fun r => statField r p)) / 100),
      type := "biology" })

/-- The parameter and biology links, iterating over the distinct regions in
insertion order exactly as `regionStats.forEach` does. -/
def paramBioLinks (data : List CSVData) : List GraphLink :=
  (regionsOf data).flatMap (regionLinkGroup data)

/-- The region set collected for one month in `monthlyRegions`, in insertion
order. -/
def monthRegions (data : List CSVData) (month : String) : List String :=
  dedupFirst ((data.filter (fun r => substr7 r.date = month)).map (fun r => r.region))

/-- The temporal links: one per distinct (year-month, region) pair. -/
def temporalLinks (data : List CSVData) : List GraphLink :=
  (monthsOf data).flatMap (fun month =>
    (monthRegions data month).map (fun region =>
      { source := "time-" ++ month, target := "region-" ++ region,
        value := 1, type := "temporal" }))

/-- All links, in the construction order of the source. -/
def graphLinks (data : List CSVData) : List GraphLink :=
  paramBioLinks data ++ temporalLinks data

/-- The snapshot passed to `setGraphData`. -/
structure GraphSnapshot where
  nodes : List GraphNode
  links : List GraphLink
deriving DecidableEq, Repr

/-- The nodes and links constructed for non-empty data. -/
def buildGraph (data : List CSVData) : GraphSnapshot :=
  { nodes := graphNodes data, links := graphLinks data }

/-- `generateKnowledgeGraph`: on empty data the source returns early without
calling `setGraphData` (modelled as `none`); otherwise it builds the snapshot
and stores it (modelled as `some`). -/
def generateKnowledgeGraph (data : List CSVData) : Option GraphSnapshot :=
  if data.isEmpty then none else some (buildGraph data)

/-! ### Basic lemmas about the embedding's helpers -/

lemma mem_dedupFirstAux {α : Type} [DecidableEq α] (a : α) :
    ∀ (l seen : List α), a ∈ dedupFirstAux seen l ↔ a ∈ l ∧ a ∉ seen := by
  intro l
  induction l with
  | nil => intro seen; simp [dedupFirstAux]
  | cons x xs ih =>
    intro seen
    unfold dedupFirstAux
    by_cases hx : x ∈ seen
    · rw [if_pos hx, ih seen]
      constructor
      · rintro ⟨ha, hs⟩
        exact ⟨List.mem_cons_of_mem x ha, hs⟩
      · rintro ⟨ha, hs⟩
        rcases List.mem_cons.mp ha with rfl | ha
        · exact absurd hx hs
        · exact ⟨ha, hs⟩
    · rw [if_neg hx]
      constructor
      · intro hmem
        rcases List.mem_cons.mp hmem with rfl | hmem
        · exact ⟨List.mem_cons_self a xs, hx⟩
        · obtain ⟨ha, hs⟩ := (ih (x :: seen)).mp hmem
          exact ⟨List.mem_cons_of_mem x ha, fun hsa => hs (List.mem_cons_of_mem x hsa)⟩
      · rintro ⟨ha, hs⟩
        rcases List.mem_cons.mp ha with rfl | ha
        · exact List.mem_cons_self a _
        · by_cases hax : a = x
          · subst hax
            exact List.mem_cons_self a _
          · refine List.mem_cons_of_mem x ((ih (x :: seen)).mpr ⟨ha, ?_⟩)
            intro hsa
            rcases List.mem_cons.mp hsa with h | h
            · exact hax h
            · exact hs h

lemma mem_dedupFirst {α : Type} [DecidableEq α] (a : α) (l : List α) :
    a ∈ dedupFirst l ↔ a ∈ l := by
  unfold dedupFirst
  rw [mem_dedupFirstAux]
  simp

lemma nodup_dedupFirstAux {α : Type} [DecidableEq α] :
    ∀ (l seen : List α), (dedupFirstAux seen l).Nodup := by
  intro l
  induction l with
  | nil => intro seen; simp [dedupFirstAux]
  | cons x xs ih =>
    intro seen
    unfold dedupFirstAux
    by_cases hx : x ∈ seen
    · rw [if_pos hx]
      exact ih seen
    · rw [if_neg hx]
      refine List.nodup_cons.mpr ⟨?_, ih (x :: seen)⟩
      intro hmem
      exact ((mem_dedupFirstAux x xs (x :: seen)).mp hmem).2 (List.mem_cons_self x seen)

lemma nodup_dedupFirst {α : Type} [DecidableEq α] (l : List α) :
    (dedupFirst l).Nodup :=
  nodup_dedupFirstAux l []

lemma toFinset_dedupFirst {α : Type} [DecidableEq α] (l : List α) :
    (dedupFirst l).toFinset = l.toFinset := by
  ext a
  simp [List.mem_toFinset, mem_dedupFirst]

lemma length_dedupFirst {α : Type} [DecidableEq α] (l : List α) :
    (dedupFirst l).length = l.toFinset.card := by
  rw [← List.toFinset_card_of_nodup (nodup_dedupFirst l), toFinset_dedupFirst]

lemma string_data_inj {s t : String} (h : s.data = t.data) : s = t := by
  cases s
  cases t
  exact congrArg String.mk h

lemma string_append_left_cancel {a b c : String} (h : a ++ b = a ++ c) : b = c := by
  apply string_data_inj
  have hd := congrArg String.data h
  rw [String.data_append, String.data_append] at hd
  exact List.append_cancel_left hd

lemma string_append_left_inj (a : String) :
    Function.Injective (fun s => a ++ s) := by
  intro s t h
  exact string_append_left_cancel h

lemma string_append_ne_of_head_ne {p q : String} (hp : p.data ≠ []) (hq : q.data ≠ [])
    (h : p.data.head? ≠ q.data.head?) (a b : String) : p ++ a ≠ q ++ b := by
  intro he
  obtain ⟨c, cs, hc⟩ := List.exists_cons_of_ne_nil hp
  obtain ⟨d, ds, hdq⟩ := List.exists_cons_of_ne_nil hq
  have hd := congrArg String.data he
  rw [String.data_append, String.data_append, hc, hdq] at hd
  simp only [List.cons_append, List.cons.injEq] at hd
  apply h
  rw [hc, hdq]
  simp [hd.1]

lemma flatMap_eq_nil_of_forall {α β : Type} {l : List α} {f : α → List β}
    (h : ∀ a ∈ l, f a = []) : l.flatMap f = [] :=
  List.flatMap_eq_nil_iff.mpr h

lemma flatMap_single {α β : Type} {l : List α} {f : α → List β} {x : α}
    (hnd : l.Nodup) (hx : x ∈ l) (h0 : ∀ y ∈ l, y ≠ x → f y = []) :
    l.flatMap f = f x := by
  induction l with
  | nil => cases hx
  | cons a as ih =>
    rcases List.mem_cons.mp hx with hax | hax
    · subst hax
      have hnil : as.flatMap f = [] := flatMap_eq_nil_of_forall (fun y hy =>
        h0 y (by simp [hy]) (fun hyx => (List.nodup_cons.mp hnd).1 (hyx ▸ hy)))
      simp [List.flatMap_cons, hnil]
    · have ha : a ≠ x := fun hh => (List.nodup_cons.mp hnd).1 (hh ▸ hax)
      rw [List.flatMap_cons, h0 a (by simp) ha, List.nil_append]
      exact ih (List.nodup_cons.mp hnd).2 hax (fun y hy hyx => h0 y (by simp [hy]) hyx)

/-! ### Node classification lemmas -/

lemma mem_regionNodes_type {data : List CSVData} {n : GraphNode}
    (hn : n ∈ regionNodes data) : n.type = NodeType.region := by
  obtain ⟨r, _, rfl⟩ := List.mem_map.mp hn
  rfl

lemma mem_parameterNodes_type {n : GraphNode}
    (hn : n ∈ parameterNodes) : n.type = NodeType.parameter := by
  obtain ⟨p, _, rfl⟩ := List.mem_map.mp hn
  rfl

lemma mem_biologyNodes_type {n : GraphNode}
    (hn : n ∈ biologyNodes) : n.type = NodeType.biology := by
  obtain ⟨p, _, rfl⟩ := List.mem_map.mp hn
  rfl

lemma mem_timeNodes_type {data : List CSVData} {n : GraphNode}
    (hn : n ∈ timeNodes data) : n.type = NodeType.time := by
  obtain ⟨m, _, rfl⟩ := List.mem_map.mp hn
  rfl

lemma filter_type_eq_self {t : NodeType} {l : List GraphNode}
    (h : ∀ n ∈ l, n.type = t) : l.filter (fun n => n.type = t) = l :=
  List.filter_eq_self.mpr (fun a ha => by simp [h a ha])

lemma filter_type_eq_nil {t t' : NodeType} {l : List GraphNode}
    (h : ∀ n ∈ l, n.type = t') (hne : t' ≠ t) :
    l.filter (fun n => n.type = t) = [] :=
  List.filter_eq_nil_iff.mpr (fun a ha => by simp [h a ha, hne])

lemma graphNodes_filter_region (data : List CSVData) :
    (graphNodes data).filter (fun n => n.type = NodeType.region) = regionNodes data := by
  unfold graphNodes
  rw [List.filter_append, List.filter_append, List.filter_append,
    filter_type_eq_self (fun n hn => mem_regionNodes_type hn),
    filter_type_eq_nil (fun n hn => mem_parameterNodes_type hn) (by simp),
    filter_type_eq_nil (fun n hn => mem_biologyNodes_type hn) (by simp),
    filter_type_eq_nil (fun n hn => mem_timeNodes_type hn) (by simp)]
  simp

lemma graphNodes_filter_parameter (data : List CSVData) :
    (graphNodes data).filter (fun n => n.type = NodeType.parameter) = parameterNodes := by
  unfold graphNodes
  rw [List.filter_append, List.filter_append, List.filter_append,
    filter_type_eq_nil (fun n hn => mem_regionNodes_type hn) (by simp),
    filter_type_eq_self (fun n hn => mem_parameterNodes_type hn),
    filter_type_eq_nil (fun n hn => mem_biologyNodes_type hn) (by simp),
    filter_type_eq_nil (fun n hn => mem_timeNodes_type hn) (by simp)]
  simp

lemma graphNodes_filter_biology (data : List CSVData) :
    (graphNodes data).filter (fun n => n.type = NodeType.biology) = biologyNodes := by
  unfold graphNodes
  rw [List.filter_append, List.filter_append, List.filter_append,
    filter_type_eq_nil (fun n hn => mem_regionNodes_type hn) (by simp),
    filter_type_eq_nil (fun n hn => mem_parameterNodes_type hn) (by simp),
    filter_type_eq_self (fun n hn => mem_biologyNodes_type hn),
    filter_type_eq_nil (fun n hn => mem_timeNodes_type hn) (by simp)]
  simp

lemma graphNodes_filter_time (data : List CSVData) :
    (graphNodes data).filter (fun n => n.type = NodeType.time) = timeNodes data := by
  unfold graphNodes
  rw [List.filter_append, List.filter_append, List.filter_append,
    filter_type_eq_nil (fun n hn => mem_regionNodes_type hn) (by simp),
    filter_type_eq_nil (fun n hn => mem_parameterNodes_type hn) (by simp),
    filter_type_eq_nil (fun n hn => mem_biologyNodes_type hn) (by simp),
    filter_type_eq_self (fun n hn => mem_timeNodes_type hn)]
  simp

lemma length_regionNodes (data : List CSVData) :
    (regionNodes data).length = (data.map (fun d => d.region)).toFinset.card := by
  unfold regionNodes regionsOf
  rw [List.length_map, length_dedupFirst]

lemma length_timeNodes (data : List CSVData) :
    (timeNodes data).length = (data.map (fun d => substr7 d.date)).toFinset.card := by
  unfold timeNodes monthsOf
  rw [List.length_map, length_dedupFirst]

/-- C1: for every non-empty record sequence, the graph contains exactly one
Region node per distinct region value, exactly 5 Parameter nodes and exactly 3
Biology nodes regardless of the data, and exactly one TimePeriod node per
distinct 7-character year-month prefix of the records' date fields. -/
theorem graph_node_counts (data : List CSVData) (_h : data ≠ []) :
    ((buildGraph data).nodes.filter (fun n => n.type = NodeType.region)).length
        = (data.map (fun d => d.region)).toFinset.card
    ∧ ((buildGraph data).nodes.filter (fun n => n.type = NodeType.parameter)).length = 5
    ∧ ((buildGraph data).nodes.filter (fun n => n.type = NodeType.biology)).length = 3
    ∧ ((buildGraph data).nodes.filter (fun n => n.type = NodeType.time)).length
        = (data.map (fun d => substr7 d.date)).toFinset.card := by
  refine ⟨?_, ?_, ?_, ?_⟩
  · rw [show (buildGraph data).nodes = graphNodes data from rfl,
      graphNodes_filter_region, length_regionNodes]
  · rw [show (buildGraph data).nodes = graphNodes data from rfl,
      graphNodes_filter_parameter]
    rfl
  · rw [show (buildGraph data).nodes = graphNodes data from rfl,
      graphNodes_filter_biology]
    rfl
  · rw [show (buildGraph data).nodes = graphNodes data from rfl,
      graphNodes_filter_time, length_timeNodes]

/-! ### Node identity -/

/-- The deterministic id scheme: a node's id is its kind's fixed tag followed
by its label, exactly as the four template literals of the source build it. -/
def nodeIdOf : NodeType → String → String
  | NodeType.region, v => "region-" ++ v
  | NodeType.parameter, v => "param-" ++ v
  | NodeType.biology, v => "bio-" ++ v
  | NodeType.time, v => "time-" ++ v

lemma id_eq_nodeIdOf {data : List CSVData} {n : GraphNode}
    (hn : n ∈ graphNodes data) : n.id = nodeIdOf n.type n.value := by
  unfold graphNodes at hn
  rcases List.mem_append.mp hn with hn | hn
  · rcases List.mem_append.mp hn with hn | hn
    · rcases List.mem_append.mp hn with hn | hn
      · obtain ⟨r, _, rfl⟩ := List.mem_map.mp hn
        rfl
      · obtain ⟨p, _, rfl⟩ := List.mem_map.mp hn
        rfl
    · obtain ⟨p, _, rfl⟩ := List.mem_map.mp hn
      rfl
  · obtain ⟨m, _, rfl⟩ := List.mem_map.mp hn
    rfl

lemma disjoint_prefixed {p q : String} (hp : p.data ≠ []) (hq : q.data ≠ [])
    (h : p.data.head? ≠ q.data.head?) (l₁ l₂ : List String) :
    (l₁.map (fun s => p ++ s)).Disjoint (l₂.map (fun s => q ++ s)) := by
  intro a ha hb
  obtain ⟨s, _, rfl⟩ := List.mem_map.mp ha
  obtain ⟨t, _, hteq⟩ := List.mem_map.mp hb
  exact string_append_ne_of_head_ne hp hq h s t hteq.symm

lemma nodup_prefixed (p : String) {l : List String} (hl : l.Nodup) :
    (l.map (fun s => p ++ s)).Nodup :=
  hl.map (string_append_left_inj p)

lemma graphNode_ids_eq (data : List CSVData) :
    (graphNodes data).map (fun n => n.id)
      = (regionsOf data).map (fun s => "region-" ++ s)
        ++ parameters.map (fun s => "param-" ++ s)
        ++ biologyParams.map (fun s => "bio-" ++ s)
        ++ (monthsOf data).map (fun s => "time-" ++ s) := by
  simp only [graphNodes, regionNodes, parameterNodes, biologyNodes, timeNodes,
    List.map_append, List.map_map]
  rfl

lemma nodup_graphNode_ids (data : List CSVData) :
    ((graphNodes data).map (fun n => n.id)).Nodup := by
  rw [graphNode_ids_eq]
  rw [List.append_assoc, List.append_assoc]
  refine List.nodup_append.mpr ⟨?_, ?_, ?_⟩
  · exact nodup_prefixed _ (nodup_dedupFirst _)
  · refine List.nodup_append.mpr ⟨?_, ?_, ?_⟩
    · exact nodup_prefixed _ (by decide)
    · refine List.nodup_append.mpr ⟨?_, ?_, ?_⟩
      · exact nodup_prefixed _ (by decide)
      · exact nodup_prefixed _ (nodup_dedupFirst _)
      · exact disjoint_prefixed (by decide) (by decide) (by decide) _ _
    · intro a ha hb
      rcases List.mem_append.mp hb with hb | hb
      · exact disjoint_prefixed (by decide) (by decide) (by decide) _ _ ha hb
      · exact disjoint_prefixed (by decide) (by decide) (by decide) _ _ ha hb
  · intro a ha hb
    rcases List.mem_append.mp hb with hb | hb
    · exact disjoint_prefixed (by decide) (by decide) (by decide) _ _ ha hb
    · rcases List.mem_append.mp hb with hb | hb
      · exact disjoint_prefixed (by decide) (by decide) (by decide) _ _ ha hb
      · exact disjoint_prefixed (by decide) (by decide) (by decide) _ _ ha hb

/-- C5: the node ids of a constructed snapshot are pairwise distinct, and a
node's id is the deterministic function `nodeIdOf` of its kind and label, so
equal (kind, label) implies equal id. -/
theorem node_ids_unique (data : List CSVData) :
    ((buildGraph data).nodes.map (fun n => n.id)).Nodup
    ∧ (∀ n ∈ (buildGraph data).nodes, n.id = nodeIdOf n.type n.value)
    ∧ (∀ n₁ ∈ (buildGraph data).nodes, ∀ n₂ ∈ (buildGraph data).nodes,
        n₁.type = n₂.type → n₁.value = n₂.value → n₁.id = n₂.id) := by
  refine ⟨nodup_graphNode_ids data, fun n hn => id_eq_nodeIdOf hn, ?_⟩
  intro n₁ h₁ n₂ h₂ ht hv
  rw [id_eq_nodeIdOf h₁, id_eq_nodeIdOf h₂, ht, hv]

/-! ### Edge decomposition and dangling-reference freedom -/

lemma regionNode_mem_graphNodes {data : List CSVData} {r : String}
    (hr : r ∈ regionsOf data) :
    (⟨"region-" ++ r, NodeType.region, r, 1⟩ : GraphNode) ∈ graphNodes data := by
  unfold graphNodes
  refine List.mem_append_left _ (List.mem_append_left _ (List.mem_append_left _ ?_))
  exact List.mem_map.mpr ⟨r, hr, rfl⟩

lemma parameterNode_mem_graphNodes {data : List CSVData} {p : String}
    (hp : p ∈ parameters) :
    (⟨"param-" ++ p, NodeType.parameter, p, 2⟩ : GraphNode) ∈ graphNodes data := by
  unfold graphNodes
  refine List.mem_append_left _ (List.mem_append_left _ (List.mem_append_right _ ?_))
  exact List.mem_map.mpr ⟨p, hp, rfl⟩

lemma biologyNode_mem_graphNodes {data : List CSVData} {p : String}
    (hp : p ∈ biologyParams) :
    (⟨"bio-" ++ p, NodeType.biology, p, 3⟩ : GraphNode) ∈ graphNodes data := by
  unfold graphNodes
  refine List.mem_append_left _ (List.mem_append_right _ ?_)
  exact List.mem_map.mpr ⟨p, hp, rfl⟩

lemma timeNode_mem_graphNodes {data : List CSVData} {m : String}
    (hm : m ∈ monthsOf data) :
    (⟨"time-" ++ m, NodeType.time, m, 4⟩ : GraphNode) ∈ graphNodes data := by
  unfold graphNodes
  refine List.mem_append_right _ ?_
  exact List.mem_map.mpr ⟨m, hm, rfl⟩

lemma mem_paramBioLinks {data : List CSVData} {e : GraphLink}
    (he : e ∈ paramBioLinks data) :
    ∃ region ∈ regionsOf data,
      (∃ p ∈ parameters,
        e = ⟨"region-" ++ region, "param-" ++ p,
          clampWeight (listAvg ((regionRecords data region).map (fun r => statField r p)) / 10),
          "parameter"⟩)
      ∨ (∃ p ∈ biologyParams,
        e = ⟨"region-" ++ region, "bio-" ++ p,
          clampWeight (listAvg ((regionRecords data region).map (fun r => statField r p)) / 100),
          "biology"⟩) := by
  obtain ⟨region, hreg, he⟩ := List.mem_flatMap.mp he
  refine ⟨region, hreg, ?_⟩
  unfold regionLinkGroup at he
  rcases List.mem_append.mp he with he | he
  · obtain ⟨p, hp, hpe⟩ := List.mem_map.mp he
    exact Or.inl ⟨p, hp, hpe.symm⟩
  · obtain ⟨p, hp, hpe⟩ := List.mem_map.mp he
    exact Or.inr ⟨p, hp, hpe.symm⟩

lemma mem_temporalLinks {data : List CSVData} {e : GraphLink}
    (he : e ∈ temporalLinks data) :
    ∃ month ∈ monthsOf data, ∃ region ∈ monthRegions data month,
      e = ⟨"time-" ++ month, "region-" ++ region, 1, "temporal"⟩ := by
  obtain ⟨month, hm, he⟩ := List.mem_flatMap.mp he
  obtain ⟨region, hr, hre⟩ := List.mem_map.mp he
  exact ⟨month, hm, region, hr, hre.symm⟩

lemma monthRegions_subset {data : List CSVData} {month r : String}
    (hr : r ∈ monthRegions data month) : r ∈ regionsOf data := by
  unfold monthRegions at hr
  rw [mem_dedupFirst] at hr
  obtain ⟨rec, hrec, hre⟩ := List.mem_map.mp hr
  unfold regionsOf
  rw [mem_dedupFirst]
  exact List.mem_map.mpr ⟨rec, List.mem_of_mem_filter hrec, hre⟩

/-- C4: every edge of the constructed snapshot has both its source id and
its target id present in the snapshot's node set. -/
theorem no_dangling_edges (data : List CSVData) :
    ∀ e ∈ (buildGraph data).links,
      (∃ n ∈ (buildGraph data).nodes, n.id = e.source)
      ∧ (∃ n ∈ (buildGraph data).nodes, n.id = e.target) := by
  intro e he
  rcases List.mem_append.mp he with he | he
  · obtain ⟨region, hreg, hcase⟩ := mem_paramBioLinks he
    rcases hcase with ⟨p, hp, rfl⟩ | ⟨p, hp, rfl⟩
    · exact ⟨⟨_, regionNode_mem_graphNodes hreg, rfl⟩,
        ⟨_, parameterNode_mem_graphNodes hp, rfl⟩⟩
    · exact ⟨⟨_, regionNode_mem_graphNodes hreg, rfl⟩,
        ⟨_, biologyNode_mem_graphNodes hp, rfl⟩⟩
  · obtain ⟨month, hm, region, hr, rfl⟩ := mem_temporalLinks he
    exact ⟨⟨_, timeNode_mem_graphNodes hm, rfl⟩,
      ⟨_, regionNode_mem_graphNodes (monthRegions_subset hr), rfl⟩⟩

/-! ### Parameter and biology link weights -/

lemma string_append_left_iff {a b c : String} : a ++ b = a ++ c ↔ b = c :=
  ⟨string_append_left_cancel, fun h => by rw [h]⟩

lemma clampWeight_bounds (x : ℚ) : 1 / 10 ≤ clampWeight x ∧ clampWeight x ≤ 10 := by
  unfold clampWeight ratMax ratMin
  by_cases h1 : (10 : ℚ) ≤ x
  · rw [if_pos h1, if_pos (by norm_num : (1 : ℚ) / 10 ≤ 10)]
    exact ⟨by norm_num, le_refl _⟩
  · rw [if_neg h1]
    by_cases h2 : (1 : ℚ) / 10 ≤ x
    · rw [if_pos h2]
      exact ⟨h2, le_of_not_le h1⟩
    · rw [if_neg h2]
      exact ⟨le_refl _, by norm_num⟩

lemma temporal_type {data : List CSVData} {e : GraphLink}
    (he : e ∈ temporalLinks data) : e.type = "temporal" := by
  obtain ⟨m, _, r, _, rfl⟩ := mem_temporalLinks he
  rfl

lemma regionLinkGroup_source {data : List CSVData} {region : String} {e : GraphLink}
    (he : e ∈ regionLinkGroup data region) : e.source = "region-" ++ region := by
  unfold regionLinkGroup at he
  rcases List.mem_append.mp he with he | he <;>
    · obtain ⟨p, _, hpe⟩ := List.mem_map.mp he
      rw [← hpe]

lemma nodup_regionsOf (data : List CSVData) : (regionsOf data).Nodup :=
  nodup_dedupFirst _

lemma nodup_monthsOf (data : List CSVData) : (monthsOf data).Nodup :=
  nodup_dedupFirst _

lemma regionLinkGroup_filter_nil {data : List CSVData} {region r : String}
    (hne : region ≠ r) (pred : GraphLink → Bool)
    (hsrc : ∀ e, pred e = true → e.source = "region-" ++ r) :
    (regionLinkGroup data region).filter pred = [] :=
  List.filter_eq_nil_iff.mpr (fun e he hpe =>
    hne (string_append_left_cancel
      ((regionLinkGroup_source he).symm.trans (hsrc e hpe))))

lemma temporalLinks_filter_nil {data : List CSVData} (pred : GraphLink → Bool)
    (h : ∀ e, pred e = true → e.type = "parameter" ∨ e.type = "biology") :
    (temporalLinks data).filter pred = [] := by
  refine List.filter_eq_nil_iff.mpr (fun e he hpe => ?_)
  have ht := temporal_type he
  rcases h e hpe with h' | h' <;> rw [ht] at h' <;> exact absurd h' (by decide)

lemma regionLinkGroup_filter_param {data : List CSVData} {region p : String}
    (hp : p ∈ parameters) :
    (regionLinkGroup data region).filter (fun e =>
        e.type = "parameter" ∧ e.source = "region-" ++ region ∧ e.target = "param-" ++ p)
      = [⟨"region-" ++ region, "param-" ++ p,
          clampWeight (listAvg ((regionRecords data region).map (fun x => statField x p)) / 10),
          "parameter"⟩] := by
  simp only [parameters, List.mem_cons, List.not_mem_nil, or_false] at hp
  rcases hp with rfl | rfl | rfl | rfl | rfl <;>
    simp [regionLinkGroup, parameters, biologyParams, string_append_left_iff]

lemma regionLinkGroup_filter_bio {data : List CSVData} {region p : String}
    (hp : p ∈ biologyParams) :
    (regionLinkGroup data region).filter (fun e =>
        e.type = "biology" ∧ e.source = "region-" ++ region ∧ e.target = "bio-" ++ p)
      = [⟨"region-" ++ region, "bio-" ++ p,
          clampWeight (listAvg ((regionRecords data region).map (fun x => statField x p)) / 100),
          "biology"⟩] := by
  simp only [biologyParams, List.mem_cons, List.not_mem_nil, or_false] at hp
  rcases hp with rfl | rfl | rfl <;>
    simp [regionLinkGroup, parameters, biologyParams, string_append_left_iff]

lemma graphLinks_filter_param {data : List CSVData} {r p : String}
    (hr : r ∈ regionsOf data) (hp : p ∈ parameters) :
    (graphLinks data).filter (fun e =>
        e.type = "parameter" ∧ e.source = "region-" ++ r ∧ e.target = "param-" ++ p)
      = [⟨"region-" ++ r, "param-" ++ p,
          clampWeight (listAvg ((regionRecords data r).map (fun x => statField x p)) / 10),
          "parameter"⟩] := by
  unfold graphLinks
  rw [List.filter_append,
    temporalLinks_filter_nil _ (fun e hpe => Or.inl (of_decide_eq_true hpe).1),
    List.append_nil]
  unfold paramBioLinks
  rw [List.filter_flatMap,
    flatMap_single (nodup_regionsOf data) hr (fun y _ hyne =>
      regionLinkGroup_filter_nil hyne _ (fun e hpe => (of_decide_eq_true hpe).2.1))]
  exact regionLinkGroup_filter_param hp

lemma graphLinks_filter_bio {data : List CSVData} {r p : String}
    (hr : r ∈ regionsOf data) (hp : p ∈ biologyParams) :
    (graphLinks data).filter (fun e =>
        e.type = "biology" ∧ e.source = "region-" ++ r ∧ e.target = "bio-" ++ p)
      = [⟨"region-" ++ r, "bio-" ++ p,
          clampWeight (listAvg ((regionRecords data r).map (fun x => statField x p)) / 100),
          "biology"⟩] := by
  unfold graphLinks
  rw [List.filter_append,
    temporalLinks_filter_nil _ (fun e hpe => Or.inr (of_decide_eq_true hpe).1),
    List.append_nil]
  unfold paramBioLinks
  rw [List.filter_flatMap,
    flatMap_single (nodup_regionsOf data) hr (fun y _ hyne =>
      regionLinkGroup_filter_nil hyne _ (fun e hpe => (of_decide_eq_true hpe).2.1))]
  exact regionLinkGroup_filter_bio hp

/-- C2: for each distinct region and each of the 5 parameter fields the graph
has exactly one ParameterLink edge, weighted `clamp(mean/10, 0.1, 10)`; for
each of the 3 biology fields exactly one BiologyLink edge, weighted
`clamp(mean/100, 0.1, 10)` (mean over the records with that region); and
every ParameterLink and BiologyLink weight lies in [0.1, 10]. -/
theorem param_bio_link_weights (data : List CSVData) (r : String)
    (hr : r ∈ data.map (fun d => d.region)) :
    (∀ p ∈ parameters,
      ((buildGraph data).links.filter (fun e =>
          e.type = "parameter" ∧ e.source = "region-" ++ r ∧ e.target = "param-" ++ p))
        = [⟨"region-" ++ r, "param-" ++ p,
            clampWeight (listAvg ((regionRecords data r).map (fun x => statField x p)) / 10),
            "parameter"⟩])
    ∧ (∀ p ∈ biologyParams,
      ((buildGraph data).links.filter (fun e =>
          e.type = "biology" ∧ e.source = "region-" ++ r ∧ e.target = "bio-" ++ p))
        = [⟨"region-" ++ r, "bio-" ++ p,
            clampWeight (listAvg ((regionRecords data r).map (fun x => statField x p)) / 100),
            "biology"⟩])
    ∧ (∀ e ∈ (buildGraph data).links,
        e.type = "parameter" ∨ e.type = "biology" →
          1 / 10 ≤ e.value ∧ e.value ≤ 10) := by
  have hr' : r ∈ regionsOf data := (mem_dedupFirst _ _).mpr hr
  refine ⟨fun p hp => graphLinks_filter_param hr' hp,
    fun p hp => graphLinks_filter_bio hr' hp, ?_⟩
  intro e he htype
  rcases List.mem_append.mp he with he | he
  · obtain ⟨region, _, hcase⟩ := mem_paramBioLinks he
    rcases hcase with ⟨p, _, rfl⟩ | ⟨p, _, rfl⟩ <;> exact clampWeight_bounds _
  · have ht := temporal_type he
    rcases htype with h' | h' <;> rw [ht] at h' <;> exact absurd h' (by decide)

/-! ### Temporal link deduplication -/

lemma paramBio_type {data : List CSVData} {e : GraphLink}
    (he : e ∈ paramBioLinks data) :
    e.type = "parameter" ∨ e.type = "biology" := by
  obtain ⟨region, _, hcase⟩ := mem_paramBioLinks he
  rcases hcase with ⟨p, _, rfl⟩ | ⟨p, _, rfl⟩
  · exact Or.inl rfl
  · exact Or.inr rfl

lemma paramBioLinks_filter_nil {data : List CSVData} (pred : GraphLink → Bool)
    (h : ∀ e, pred e = true → e.type = "temporal") :
    (paramBioLinks data).filter pred = [] := by
  refine List.filter_eq_nil_iff.mpr (fun e he hpe => ?_)
  rcases paramBio_type he with h' | h' <;> rw [h e hpe] at h' <;>
    exact absurd h' (by decide)

lemma nodup_monthRegions (data : List CSVData) (m : String) :
    (monthRegions data m).Nodup :=
  nodup_dedupFirst _

lemma timeLink_map_filter_ne {data : List CSVData} {month m : String} (r : String)
    (hne : month ≠ m) :
    ((monthRegions data month).map (fun region =>
        (⟨"time-" ++ month, "region-" ++ region, 1, "temporal"⟩ : GraphLink))).filter
      (fun e => e.type = "temporal" ∧ e.source = "time-" ++ m ∧ e.target = "region-" ++ r)
      = [] := by
  refine List.filter_eq_nil_iff.mpr (fun e he hpe => ?_)
  obtain ⟨region, _, rfl⟩ := List.mem_map.mp he
  exact hne (string_append_left_cancel (of_decide_eq_true hpe).2.1)

lemma timeLink_filter_general (m r : String) (l : List String) (hnd : l.Nodup) :
    (l.map (fun region =>
        (⟨"time-" ++ m, "region-" ++ region, 1, "temporal"⟩ : GraphLink))).filter
      (fun e => e.type = "temporal" ∧ e.source = "time-" ++ m ∧ e.target = "region-" ++ r)
      = if r ∈ l then [⟨"time-" ++ m, "region-" ++ r, 1, "temporal"⟩] else [] := by
  induction l with
  | nil => simp
  | cons a as ih =>
    rw [List.map_cons, List.filter_cons]
    by_cases har : a = r
    · subst har
      have hnotin := (List.nodup_cons.mp hnd).1
      rw [ih (List.nodup_cons.mp hnd).2]
      simp [hnotin]
    · rw [ih (List.nodup_cons.mp hnd).2]
      have hra : ¬(r = a) := fun h => har h.symm
      simp [string_append_left_iff, har, hra]

lemma temporalLinks_filter (data : List CSVData) (m r : String) :
    (temporalLinks data).filter
      (fun e => e.type = "temporal" ∧ e.source = "time-" ++ m ∧ e.target = "region-" ++ r)
      = if m ∈ monthsOf data ∧ r ∈ monthRegions data m
        then [⟨"time-" ++ m, "region-" ++ r, 1, "temporal"⟩] else [] := by
  unfold temporalLinks
  rw [List.filter_flatMap]
  by_cases hm : m ∈ monthsOf data
  · rw [flatMap_single (nodup_monthsOf data) hm (fun y _ hy => timeLink_map_filter_ne r hy),
      timeLink_filter_general m r _ (nodup_monthRegions data m)]
    by_cases hr : r ∈ monthRegions data m
    · rw [if_pos hr, if_pos ⟨hm, hr⟩]
    · rw [if_neg hr, if_neg (fun h => hr h.2)]
  · rw [flatMap_eq_nil_of_forall
      (fun y hy => timeLink_map_filter_ne r (fun hym => hm (by rw [hym] at hy; exact hy))),
      if_neg (fun h => hm h.1)]

lemma month_region_pair_iff (data : List CSVData) (m r : String) :
    (m ∈ monthsOf data ∧ r ∈ monthRegions data m) ↔
      ∃ rec ∈ data, substr7 rec.date = m ∧ rec.region = r := by
  constructor
  · rintro ⟨_, hr⟩
    unfold monthRegions at hr
    rw [mem_dedupFirst] at hr
    obtain ⟨rec, hrec, hre⟩ := List.mem_map.mp hr
    exact ⟨rec, List.mem_of_mem_filter hrec,
      of_decide_eq_true (List.mem_filter.mp hrec).2, hre⟩
  · rintro ⟨rec, hrec, hdate, hregion⟩
    constructor
    · unfold monthsOf
      rw [mem_dedupFirst]
      exact List.mem_map.mpr ⟨rec, hrec, hdate⟩
    · unfold monthRegions
      rw [mem_dedupFirst]
      exact List.mem_map.mpr ⟨rec, List.mem_filter.mpr ⟨hrec, by simp [hdate]⟩, hregion⟩

/-- C3: the snapshot contains exactly one TemporalLink edge per distinct
(year-month, region) pair observed in the input — deduplicated as a set, not
one per record — and every TemporalLink edge has weight exactly 1. -/
theorem temporal_link_dedup (data : List CSVData) :
    (∀ m r,
      (((buildGraph data).links).filter (fun e =>
          e.type = "temporal" ∧ e.source = "time-" ++ m ∧ e.target = "region-" ++ r)).length
        = if ∃ rec ∈ data, substr7 rec.date = m ∧ rec.region = r then 1 else 0)
    ∧ ∀ e ∈ (buildGraph data).links, e.type = "temporal" → e.value = 1 := by
  constructor
  · intro m r
    show ((graphLinks data).filter _).length = _
    unfold graphLinks
    rw [List.filter_append,
      paramBioLinks_filter_nil _ (fun e hpe => (of_decide_eq_true hpe).1),
      List.nil_append, temporalLinks_filter]
    by_cases h : ∃ rec ∈ data, substr7 rec.date = m ∧ rec.region = r
    · rw [if_pos ((month_region_pair_iff data m r).mpr h), if_pos h]
      rfl
    · rw [if_neg (fun hc => h ((month_region_pair_iff data m r).mp hc)), if_neg h]
      rfl
  · intro e he ht
    rcases List.mem_append.mp he with he | he
    · rcases paramBio_type he with h' | h' <;> rw [ht] at h' <;>
        exact absurd h' (by decide)
    · obtain ⟨month, _, region, _, rfl⟩ := mem_temporalLinks he
      rfl

/-! ### Determinism, empty input, and date totality -/

/-- C6: `generateKnowledgeGraph` is a pure function of the record sequence —
two invocations on identical inputs produce identical node-id sets and
identical edge sets (endpoints, weights and categories included); no
randomness enters graph construction. -/
theorem graph_builder_deterministic (d₁ d₂ : List CSVData) (h : d₁ = d₂) :
    (buildGraph d₁).nodes.map (fun n => n.id) = (buildGraph d₂).nodes.map (fun n => n.id)
    ∧ (buildGraph d₁).links = (buildGraph d₂).links := by
  subst h
  exact ⟨rfl, rfl⟩

/-- C7 counterexample: on an empty record sequence the source returns early
(`if (!data || data.length === 0) return;`) without constructing any
snapshot, so the claim that it returns an empty snapshot `⟨[], []⟩` is false:
no snapshot is produced at all. -/
theorem empty_input_no_snapshot : generateKnowledgeGraph [] ≠ some ⟨[], []⟩ := by
  decide

/-- C7 amended: invoked on a record sequence of length zero,
`generateKnowledgeGraph` returns early without constructing or storing any
snapshot (the stored graph state is left unchanged), and this path raises no
error; the snapshot is absent exactly when the input is empty, so callers see
"nothing to render", never an error. -/
theorem empty_input_returns_early :
    generateKnowledgeGraph [] = none
    ∧ ∀ data : List CSVData, generateKnowledgeGraph data = none ↔ data = [] := by
  refine ⟨rfl, fun data => ?_⟩
  unfold generateKnowledgeGraph
  rcases data with _ | ⟨a, as⟩
  · simp
  · simp

/-- C10: graph construction is total in the date field: truncation of a date
string shorter than 7 characters yields the whole string, which is then used
as the year-month key, and the snapshot has exactly one TimePeriod node per
distinct such prefix. -/
theorem short_date_total (data : List CSVData) :
    (∀ rec ∈ data, rec.date.data.length ≤ 7 → substr7 rec.date = rec.date)
    ∧ ((buildGraph data).nodes.filter (fun n => n.type = NodeType.time)).length
        = (data.map (fun rec => substr7 rec.date)).toFinset.card := by
  constructor
  · intro rec _ hlen
    unfold substr7
    rw [List.take_of_length_le hlen]
  · rw [show (buildGraph data).nodes = graphNodes data from rfl,
      graphNodes_filter_time, length_timeNodes]

/-! ### Layout engine: pin/step semantics and selection

The force-simulation tick itself is d3-force library code, not part of this
repository's sources; §4.2 of the spec describes its contract, and the drag
handlers of `KnowledgeGraph.tsx` (lines 276–290) manipulate the per-node pin
fields `fx`/`fy` exactly as modelled here. -/

/-- A node as the layout engine sees it: the graph node id plus the
layout-time fields (position, velocity, and the nullable pin fields
`fx`/`fy`) that the simulation maintains on each node object. -/
structure LayoutNode where
  id : String
  x : ℚ
  y : ℚ
  vx : ℚ
  vy : ℚ
  fx : Option ℚ
  fy : Option ℚ
deriving DecidableEq, Repr

/-- The layout engine's state: the node array and the cooling scalar
`alpha`. -/
structure LayoutState where
  nodes : List LayoutNode
  alpha : ℚ
deriving DecidableEq, Repr

/-- The fixed multiplicative cooling factor (d3's default `alphaDecay`
≈ 0.0228); its exact value is irrelevant to the properties proved here. -/
def alphaDecay : ℚ := 228 / 10000

/-- Modelled from the spec: one simulation tick for a single node
(d3-force's per-node update, library code not under `src/`).  A pinned node's
position is set exactly to its pinned coordinates, overriding simulated
motion; an unpinned node integrates the force displacement scaled by
`alpha` into its velocity and position. -/
def tickNode (force : LayoutState → LayoutNode → ℚ × ℚ) (s : LayoutState)
    (n : LayoutNode) : LayoutNode :=
  match n.fx, n.fy with
  | some px, some py => { n with x := px, y := py, vx := 0, vy := 0 }
  | _, _ =>
    let d := force s n
    let vx := n.vx + s.alpha * d.1
    let vy := n.vy + s.alpha * d.2
    { n with x := n.x + vx, y := n.y + vy, vx := vx, vy := vy }

/-- Modelled from the spec: one `step` of the layout engine — every node is
ticked with the forces of that tick, and `alpha` decays multiplicatively. -/
def stepLayout (force : LayoutState → LayoutNode → ℚ × ℚ) (s : LayoutState) :
    LayoutState :=
  { nodes := s.nodes.map (tickNode force s),
    alpha := s.alpha * (1 - alphaDecay) }

/-- `pin(id, x, y)`: the drag handler sets `d.fx = event.x; d.fy = event.y`
(source lines 282–285). -/
def pinNode (s : LayoutState) (id : String) (px py : ℚ) : LayoutState :=
  { s with nodes := s.nodes.map (fun n =>
      if n.id = id then { n with fx := some px, fy := some py } else n) }

/-- `unpin(id)`: drag end clears the pin, `d.fx = null; d.fy = null`
(source lines 286–290). -/
def unpinNode (s : LayoutState) (id : String) : LayoutState :=
  { s with nodes := s.nodes.map (fun n =>
      if n.id = id then { n with fx := none, fy := none } else n) }

/-- A run of consecutive ticks; each tick may combine arbitrary forces. -/
def stepMany (forces : Nat → LayoutState → LayoutNode → ℚ × ℚ) :
    Nat → LayoutState → LayoutState
  | 0, s => s
  | k + 1, s => stepMany (fun i => forces (i + 1)) k (stepLayout (forces 0) s)

/-- The position read accessor of the engine's position map. -/
def posOf (s : LayoutState) (id : String) : Option (ℚ × ℚ) :=
  (s.nodes.find? (fun n => n.id = id)).map (fun n => (n.x, n.y))

lemma tickNode_id (f : LayoutState → LayoutNode → ℚ × ℚ) (s : LayoutState)
    (n : LayoutNode) : (tickNode f s n).id = n.id := by
  unfold tickNode
  rcases hfx : n.fx with _ | px <;> rcases hfy : n.fy with _ | py <;> simp [hfx, hfy]

lemma tickNode_pin (f : LayoutState → LayoutNode → ℚ × ℚ) (s : LayoutState)
    (n : LayoutNode) : (tickNode f s n).fx = n.fx ∧ (tickNode f s n).fy = n.fy := by
  unfold tickNode
  rcases hfx : n.fx with _ | px <;> rcases hfy : n.fy with _ | py <;> simp [hfx, hfy]

lemma tickNode_pinned_pos (f : LayoutState → LayoutNode → ℚ × ℚ) (s : LayoutState)
    {n : LayoutNode} {px py : ℚ} (hfx : n.fx = some px) (hfy : n.fy = some py) :
    (tickNode f s n).x = px ∧ (tickNode f s n).y = py := by
  unfold tickNode
  simp [hfx, hfy]

lemma pinNode_invariant (s : LayoutState) (id : String) (px py : ℚ) :
    ∀ n ∈ (pinNode s id px py).nodes, n.id = id →
      n.fx = some px ∧ n.fy = some py := by
  intro n hn hid
  obtain ⟨n₀, _, rfl⟩ := List.mem_map.mp hn
  by_cases h₀ : n₀.id = id
  · simp [h₀]
  · rw [if_neg h₀] at hid ⊢
    exact absurd hid h₀

lemma stepLayout_invariant {f : LayoutState → LayoutNode → ℚ × ℚ}
    {s : LayoutState} {id : String} {px py : ℚ}
    (h : ∀ n ∈ s.nodes, n.id = id → n.fx = some px ∧ n.fy = some py) :
    ∀ n ∈ (stepLayout f s).nodes, n.id = id →
      n.fx = some px ∧ n.fy = some py := by
  intro n hn hid
  obtain ⟨n₀, hn₀, rfl⟩ := List.mem_map.mp hn
  rw [tickNode_id] at hid
  rw [(tickNode_pin f s n₀).1, (tickNode_pin f s n₀).2]
  exact h n₀ hn₀ hid

lemma stepLayout_pinned_pos {f : LayoutState → LayoutNode → ℚ × ℚ}
    {s : LayoutState} {id : String} {px py : ℚ}
    (h : ∀ n ∈ s.nodes, n.id = id → n.fx = some px ∧ n.fy = some py) :
    ∀ n ∈ (stepLayout f s).nodes, n.id = id → n.x = px ∧ n.y = py := by
  intro n hn hid
  obtain ⟨n₀, hn₀, rfl⟩ := List.mem_map.mp hn
  rw [tickNode_id] at hid
  obtain ⟨hfx, hfy⟩ := h n₀ hn₀ hid
  exact tickNode_pinned_pos f s hfx hfy

lemma pinNode_ids (s : LayoutState) (id : String) (px py : ℚ) :
    (pinNode s id px py).nodes.map (fun n => n.id) = s.nodes.map (fun n => n.id) := by
  show (s.nodes.map _).map _ = _
  rw [List.map_map]
  refine List.map_congr_left (fun n _ => ?_)
  by_cases h : n.id = id <;> simp [h]

lemma stepLayout_ids (f : LayoutState → LayoutNode → ℚ × ℚ) (s : LayoutState) :
    (stepLayout f s).nodes.map (fun n => n.id) = s.nodes.map (fun n => n.id) := by
  show (s.nodes.map _).map _ = _
  rw [List.map_map]
  exact List.map_congr_left (fun n _ => tickNode_id f s n)

lemma exists_id_of_ids_eq {s s' : LayoutState} {id : String}
    (hids : s'.nodes.map (fun n => n.id) = s.nodes.map (fun n => n.id))
    (h : ∃ n ∈ s.nodes, n.id = id) : ∃ n ∈ s'.nodes, n.id = id := by
  obtain ⟨n, hn, hid⟩ := h
  have : id ∈ s'.nodes.map (fun n => n.id) := by
    rw [hids]
    exact List.mem_map.mpr ⟨n, hn, hid⟩
  obtain ⟨m, hm, hmid⟩ := List.mem_map.mp this
  exact ⟨m, hm, hmid⟩

lemma posOf_eq_of {s : LayoutState} {id : String} {px py : ℚ}
    (hex : ∃ n ∈ s.nodes, n.id = id)
    (hpos : ∀ n ∈ s.nodes, n.id = id → n.x = px ∧ n.y = py) :
    posOf s id = some (px, py) := by
  obtain ⟨n, hn, hid⟩ := hex
  have hsome : (s.nodes.find? (fun n => n.id = id)).isSome :=
    List.find?_isSome.mpr ⟨n, hn, by simp [hid]⟩
  obtain ⟨m, hm⟩ := Option.isSome_iff_exists.mp hsome
  have hmid : m.id = id := by
    have := List.find?_some hm
    simpa using this
  obtain ⟨hx, hy⟩ := hpos m (List.mem_of_find?_eq_some hm) hmid
  unfold posOf
  rw [hm]
  simp [hx, hy]

lemma stepMany_pinned (px py : ℚ) (id : String) :
    ∀ (k : Nat) (forces : Nat → LayoutState → LayoutNode → ℚ × ℚ)
      (s : LayoutState),
      (∃ n ∈ s.nodes, n.id = id) →
      (∀ n ∈ s.nodes, n.id = id → n.fx = some px ∧ n.fy = some py) →
      posOf (stepMany forces (k + 1) s) id = some (px, py) := by
  intro k
  induction k with
  | zero =>
    intro forces s hex hpin
    show posOf (stepLayout (forces 0) s) id = some (px, py)
    exact posOf_eq_of (exists_id_of_ids_eq (stepLayout_ids (forces 0) s) hex)
      (stepLayout_pinned_pos hpin)
  | succ k ih =>
    intro forces s hex hpin
    show posOf (stepMany (fun i => forces (i + 1)) (k + 1) (stepLayout (forces 0) s)) id
      = some (px, py)
    exact ih _ _ (exists_id_of_ids_eq (stepLayout_ids (forces 0) s) hex)
      (stepLayout_invariant hpin)

/-- C8: pinning a node and then stepping any positive number of ticks — under
arbitrary forces each tick — yields that node's position exactly at the
pinned coordinates; the pin keeps overriding simulated motion on every
subsequent tick as long as no `unpin` intervenes. -/
theorem pin_overrides_forces (s : LayoutState) (id : String) (px py : ℚ)
    (forces : Nat → LayoutState → LayoutNode → ℚ × ℚ) (k : Nat)
    (h : ∃ n ∈ s.nodes, n.id = id) :
    posOf (stepMany forces (k + 1) (pinNode s id px py)) id = some (px, py) := by
  refine stepMany_pinned px py id k forces (pinNode s id px py) ?_
    (pinNode_invariant s id px py)
  exact exists_id_of_ids_eq (pinNode_ids s id px py) h

/-- The component state around the graph: the layout simulation plus the
`selectedNode` accessor held in React state. -/
structure ComponentState where
  layout : LayoutState
  selectedNode : Option LayoutNode
deriving DecidableEq, Repr

/-- The click handler of the source (lines 273–275): it calls
`setSelectedNode(d)` and nothing else. -/
def handleNodeClick (s : ComponentState) (d : LayoutNode) : ComponentState :=
  { s with selectedNode := some d }

/-- C9: selecting a node by clicking mutates neither any node's pin state,
position, velocity, nor the simulation's alpha — the whole layout state is
unchanged; only the selected-node accessor changes. -/
theorem click_is_pure_read (s : ComponentState) (d : LayoutNode) :
    (handleNodeClick s d).layout.nodes = s.layout.nodes
    ∧ (handleNodeClick s d).layout.alpha = s.layout.alpha
    ∧ (handleNodeClick s d).selectedNode = some d :=
  ⟨rfl, rfl, rfl⟩

/-! ### Concrete witnesses -/

/-- A sample record with all eight numeric fields set to `v`. -/
def mkRec (region date : String) (v : ℚ) : CSVData :=
  { latitude := 0, longitude := 0, region := region, depth := v, salinity := v,
    temperature := v, ph := v, dissolved_oxygen := v, fish_population := v,
    plankton := v, coral_coverage := v, timestamp := "", date := date }

/-- Scenario A of the spec: two records in two regions and two months. -/
def sampleData : List CSVData :=
  [mkRec "Pacific" "2025-01-15" 10, mkRec "Atlantic" "2025-02-20" 20]

/-- Scenario B of the spec: three records sharing region and month. -/
def scenarioB : List CSVData :=
  [mkRec "Pacific" "2025-03-01" 1, mkRec "Pacific" "2025-03-10" 2,
   mkRec "Pacific" "2025-03-20" 3]

/-- A record whose date is shorter than seven characters. -/
def shortDateData : List CSVData := [mkRec "Pacific" "2025" 5]

theorem graph_node_counts_witness :
    sampleData ≠ []
    ∧ (((buildGraph sampleData).nodes.filter (fun n => n.type = NodeType.region)).length
          = (sampleData.map (fun d => d.region)).toFinset.card
        ∧ ((buildGraph sampleData).nodes.filter (fun n => n.type = NodeType.parameter)).length = 5
        ∧ ((buildGraph sampleData).nodes.filter (fun n => n.type = NodeType.biology)).length = 3
        ∧ ((buildGraph sampleData).nodes.filter (fun n => n.type = NodeType.time)).length
          = (sampleData.map (fun d => substr7 d.date)).toFinset.card) :=
  ⟨by decide, graph_node_counts sampleData (by decide)⟩

theorem param_bio_link_weights_witness :
    "Pacific" ∈ sampleData.map (fun d => d.region)
    ∧ ((∀ p ∈ parameters,
        ((buildGraph sampleData).links.filter (fun e =>
            e.type = "parameter" ∧ e.source = "region-" ++ "Pacific"
              ∧ e.target = "param-" ++ p))
          = [⟨"region-" ++ "Pacific", "param-" ++ p,
              clampWeight (listAvg ((regionRecords sampleData "Pacific").map
                (fun x => statField x p)) / 10), "parameter"⟩])
      ∧ (∀ p ∈ biologyParams,
        ((buildGraph sampleData).links.filter (fun e =>
            e.type = "biology" ∧ e.source = "region-" ++ "Pacific"
              ∧ e.target = "bio-" ++ p))
          = [⟨"region-" ++ "Pacific", "bio-" ++ p,
              clampWeight (listAvg ((regionRecords sampleData "Pacific").map
                (fun x => statField x p)) / 100), "biology"⟩])
      ∧ (∀ e ∈ (buildGraph sampleData).links,
          e.type = "parameter" ∨ e.type = "biology" →
            1 / 10 ≤ e.value ∧ e.value ≤ 10)) :=
  ⟨by decide, param_bio_link_weights sampleData "Pacific" (by decide)⟩

theorem temporal_link_dedup_witness :
    (((buildGraph scenarioB).links).filter (fun e =>
        e.type = "temporal" ∧ e.source = "time-" ++ "2025-03"
          ∧ e.target = "region-" ++ "Pacific")).length = 1 :=
  ((temporal_link_dedup scenarioB).1 "2025-03" "Pacific").trans (by decide)

/-- The temporal link for month `2025-01` and region `Pacific` in the sample
data. -/
def sampleLink : GraphLink :=
  ⟨"time-" ++ "2025-01", "region-" ++ "Pacific", 1, "temporal"⟩

lemma sampleLink_mem : sampleLink ∈ (buildGraph sampleData).links :=
  List.mem_append_right _ (List.mem_flatMap.mpr ⟨"2025-01", by decide,
    List.mem_map.mpr ⟨"Pacific", by decide, rfl⟩⟩)

theorem no_dangling_edges_witness :
    sampleLink ∈ (buildGraph sampleData).links
    ∧ ((∃ n ∈ (buildGraph sampleData).nodes, n.id = sampleLink.source)
      ∧ (∃ n ∈ (buildGraph sampleData).nodes, n.id = sampleLink.target)) :=
  ⟨sampleLink_mem, no_dangling_edges sampleData sampleLink sampleLink_mem⟩

theorem node_ids_unique_witness :
    ((buildGraph sampleData).nodes.map (fun n => n.id)).Nodup
    ∧ (∀ n ∈ (buildGraph sampleData).nodes, n.id = nodeIdOf n.type n.value)
    ∧ (∀ n₁ ∈ (buildGraph sampleData).nodes, ∀ n₂ ∈ (buildGraph sampleData).nodes,
        n₁.type = n₂.type → n₁.value = n₂.value → n₁.id = n₂.id) :=
  node_ids_unique sampleData

theorem graph_builder_deterministic_witness :
    sampleData = sampleData
    ∧ ((buildGraph sampleData).nodes.map (fun n => n.id)
          = (buildGraph sampleData).nodes.map (fun n => n.id)
        ∧ (buildGraph sampleData).links = (buildGraph sampleData).links) :=
  ⟨rfl, graph_builder_deterministic sampleData sampleData rfl⟩

theorem short_date_total_witness :
    substr7 (mkRec "Pacific" "2025" 5).date = (mkRec "Pacific" "2025" 5).date
    ∧ ((buildGraph shortDateData).nodes.filter (fun n => n.type = NodeType.time)).length
        = (shortDateData.map (fun rec => substr7 rec.date)).toFinset.card :=
  ⟨(short_date_total shortDateData).1 (mkRec "Pacific" "2025" 5) (by decide) (by decide),
    (short_date_total shortDateData).2⟩

/-- A one-node layout state for concrete instantiation. -/
def demoLayoutNode : LayoutNode := ⟨"region-Pacific", 0, 0, 0, 0, none, none⟩

/-- A layout state holding just `demoLayoutNode` at full heat. -/
def demoLayout : LayoutState := ⟨[demoLayoutNode], 1⟩

/-- A constant nonzero force assignment. -/
def demoForces : Nat → LayoutState → LayoutNode → ℚ × ℚ := fun _ _ _ => (3, 4)

/-- A component state wrapping `demoLayout` with nothing selected. -/
def demoComponent : ComponentState := ⟨demoLayout, none⟩

theorem pin_overrides_forces_witness :
    (∃ n ∈ demoLayout.nodes, n.id = "region-Pacific")
    ∧ posOf (stepMany demoForces 2 (pinNode demoLayout "region-Pacific" 5 7))
        "region-Pacific" = some (5, 7) :=
  ⟨by decide, pin_overrides_forces demoLayout "region-Pacific" 5 7 demoForces 1 (by decide)⟩

theorem click_is_pure_read_witness :
    (handleNodeClick demoComponent demoLayoutNode).layout.nodes
        = demoComponent.layout.nodes
    ∧ (handleNodeClick demoComponent demoLayoutNode).layout.alpha
        = demoComponent.layout.alpha
    ∧ (handleNodeClick demoComponent demoLayoutNode).selectedNode
        = some demoLayoutNode :=
  click_is_pure_read demoComponent demoLayoutNode

end FloatChatKG
